import Mathlib

/-!
Verification development for the AI-News signup worker.

Shallow embedding of the subscription manager (routes `subscribe`,
`verify`, `unsubscribe`, library `hmac.ts`) and of the archive index
manager (route file `archive.ts`).  Pure Lean functions mirror the
route handlers; the D1 table is a list of rows, the KV store holds the
single archive-index blob, and the R2 bucket is a partial map from
keys to bodies.  External services (Turnstile, WebCrypto HMAC-SHA256)
are passed in as explicit arguments: the Turnstile outcome as a
boolean plus optional error message, the HMAC primitive as a function
from secret and message to the 32-byte signature.
-/

namespace AINews

/-- JavaScript whitespace class (`\s` in a regex, and the set trimmed by
`String.prototype.trim`): ASCII whitespace plus the common Unicode
space separators used by ECMA-262. -/
def isJsWhitespace (c : Char) : Bool :=
  c = ' ' || c = '\t' || c = '\n' || c = '\r' ||
  c = (Char.ofNat 11) || c = (Char.ofNat 12) ||
  c = (Char.ofNat 0xa0) || c = (Char.ofNat 0xfeff) ||
  c = (Char.ofNat 0x2028) || c = (Char.ofNat 0x2029)

/-- Model of `String.prototype.toLowerCase` (per-character lowering). -/
def jsToLower (s : String) : String :=
  ⟨s.data.map Char.toLower⟩

/-- Model of `String.prototype.trim`: strip leading and trailing whitespace. -/
def jsTrim (s : String) : String :=
  ⟨(s.data.dropWhile isJsWhitespace).reverse.dropWhile isJsWhitespace |>.reverse⟩

/-- JavaScript truthiness of an optional string value: `undefined` and
the empty string are falsy, every other string is truthy. -/
def otruthy : Option String → Bool
  | none => false
  | some s => s ≠ ""

/-- A character allowed in each block of the e-mail regex: the class
`[^\s@]`. -/
def okEmailChar (c : Char) : Bool :=
  !isJsWhitespace c && c ≠ '@'

/-- Split a character list at every occurrence of `c` (the shape
`"a@b".split('@')` has, on the character level). -/
def splitAtChar (c : Char) : List Char → List (List Char)
  | [] => [[]]
  | x :: xs =>
    match splitAtChar c xs with
    | [] => [[]]
    | r :: rs => if x = c then [] :: r :: rs else (x :: r) :: rs

/-- Anchored match of `EMAIL_REGEX = /^[^\s@]+@[^\s@]+\.[^\s@]+$/`:
exactly one `@`; a nonempty `@`-and-whitespace-free local part; a
nonempty `@`-and-whitespace-free domain that contains a dot with at
least one character on each side. -/
def emailRegexTest (s : String) : Bool :=
  match splitAtChar '@' s.data with
  | [localPart, domain] =>
      !localPart.isEmpty && localPart.all okEmailChar &&
      !domain.isEmpty && domain.all okEmailChar &&
      ((domain.drop 1).dropLast.contains '.')
  | _ => false

/-- Model of `name?.trim().slice(0, 100) || null` from the subscribe route. -/
def sanitizeName (name : Option String) : Option String :=
  match name with
  | none => none
  | some n =>
      let t : String := ⟨(jsTrim n).data.take 100⟩
      if t = "" then none else some t

/-- One row of the `subscribers` D1 table (schema.sql / types.ts).
SQLite integer flags are modelled as `Bool`, timestamps as `Nat`. -/
structure Subscriber where
  id : Nat
  email : String
  name : Option String
  verification_token : Option String
  verified : Bool
  active : Bool
  created_at : Nat
  verified_at : Option Nat
deriving Repr, DecidableEq

/-- Model of `SELECT ... FROM subscribers WHERE email = ?` with `.first()`. -/
def findByEmail (db : List Subscriber) (e : String) : Option Subscriber :=
  db.find? (fun r => r.email == e)

/-- Model of `UPDATE subscribers SET ... WHERE id = ?`. -/
def updateWhereId (db : List Subscriber) (i : Nat) (f : Subscriber → Subscriber) :
    List Subscriber :=
  db.map (fun r => if r.id = i then f r else r)

/-- The JSON envelope `ApiResponse` together with the HTTP status. -/
structure ApiResp where
  success : Bool
  message : Option String := none
  error : Option String := none
  status : Nat := 200
deriving Repr, DecidableEq

/-- Model of `subscribeRoute.post('/')`.  The Turnstile call is externalised:
`captchaOk`/`captchaErr` are the outcome of `validateTurnstile`.
`now` stands for `CURRENT_TIMESTAMP`, `nextId` for the AUTOINCREMENT
key of a fresh insert.  Returns the JSON response and the new table. -/
def subscribe (captchaOk : Bool) (captchaErr : Option String) (now nextId : Nat)
    (db : List Subscriber) (email name turnstileToken : Option String) :
    ApiResp × List Subscriber :=
  if !otruthy email then
    (⟨false, none, some "Email is required", 400⟩, db)
  else if !otruthy turnstileToken then
    (⟨false, none, some "Turnstile token is required", 400⟩, db)
  else
    let normalizedEmail := jsTrim (jsToLower (email.getD ""))
    if !emailRegexTest normalizedEmail then
      (⟨false, none, some "Invalid email format", 400⟩, db)
    else
      let sanitizedName := sanitizeName name
      if !captchaOk then
        (⟨false, none, some ((captchaErr.filter (· ≠ "")).getD "Captcha failed"), 400⟩, db)
      else
        match findByEmail db normalizedEmail with
        | some existing =>
          if existing.verified && existing.active then
            (⟨true, some "You are already subscribed!", none, 200⟩, db)
          else if existing.verified && !existing.active then
            (⟨true, some "Welcome back! Subscription reactivated.", none, 200⟩,
             updateWhereId db existing.id (fun r => { r with active := true }))
          else
            -- UPDATE ... SET verified = 1, verified_at = CURRENT_TIMESTAMP,
            --   active = 1, name = COALESCE(?, name) WHERE id = ?
            (⟨true, some "You're subscribed! You'll receive the next newsletter.", none, 200⟩,
             updateWhereId db existing.id (fun r =>
               { r with verified := true, verified_at := some now, active := true,
                        name := match sanitizedName with
                                | some n => some n
                                | none => r.name }))
        | none =>
          (⟨true, some "You're subscribed! You'll receive the next newsletter.", none, 200⟩,
           db ++ [⟨nextId, normalizedEmail, sanitizedName, none, true, true, now, some now⟩])

/-- Outcome of an HTML-rendered route (`verify`, `unsubscribe`): the
styled success page, or the styled error page with message and status. -/
inductive HtmlResp where
  | success
  | errorPage (msg : String) (status : Nat)
deriving Repr, DecidableEq

/-- Model of `verifyRoute.get('/')`: look the row up by its verification token;
missing/short token → 400, no row → 404, already-verified row →
success without change, otherwise set `verified`, clear the token,
stamp `verified_at` (`unixepoch()` modelled as `now`). -/
def verify (now : Nat) (db : List Subscriber) (token : Option String) :
    HtmlResp × List Subscriber :=
  match token with
  | none => (.errorPage "Invalid or missing verification token." 400, db)
  | some t =>
    if t.length ≠ 32 then
      (.errorPage "Invalid or missing verification token." 400, db)
    else
      match db.find? (fun r => r.verification_token == some t) with
      | none => (.errorPage "This link is invalid or has expired." 404, db)
      | some subscriber =>
        if subscriber.verified then
          (.success, db)
        else
          (.success,
           updateWhereId db subscriber.id (fun r =>
             { r with verified := true, verification_token := none,
                      verified_at := some now }))

/-- Lower-case hex digit of a value below 16 (`Number.prototype.toString(16)`). -/
def hexDigit (n : Nat) : Char :=
  if n < 10 then Char.ofNat (48 + n) else Char.ofNat (87 + n)

/-- Model of `b.toString(16).padStart(2, '0')` for a byte. -/
def byteToHex (b : Nat) : String :=
  ⟨[hexDigit (b / 16 % 16), hexDigit (b % 16)]⟩

/-- Model of `Array.from(bytes).map(hex).join('')`. -/
def bytesToHex (bs : List Nat) : String :=
  String.join (bs.map byteToHex)

/-- Model of `generateHmacToken(secret, email)` from `lib/hmac.ts`: HMAC-SHA256
of the lower-cased e-mail under the secret, rendered as hex.  The
WebCrypto primitive is the explicit argument `hmac` (secret and
message in, signature bytes out). -/
def generateHmacToken (hmac : String → String → List Nat) (secret email : String) :
    String :=
  bytesToHex (hmac secret (jsToLower email))

/-- Model of `s.charCodeAt(i)` for an index below the length. -/
def charCodeAt (s : String) (i : Nat) : Nat :=
  (s.data.getD i (Char.ofNat 0)).toNat

/-- The accumulator loop of `validateHmacToken`:
`result |= a.charCodeAt(i) ^ b.charCodeAt(i)` over all indices. -/
def xorFold (a b : String) : Nat :=
  (List.range a.length).foldl (fun acc i => acc ||| (charCodeAt a i ^^^ charCodeAt b i)) 0

/-- Model of `validateHmacToken(secret, email, token)` from `lib/hmac.ts`:
regenerate the expected token and compare it to the supplied one with
a length check plus the XOR-accumulator loop. -/
def validateHmacToken (hmac : String → String → List Nat) (secret email token : String) :
    Bool :=
  let expectedToken := generateHmacToken hmac secret email
  if expectedToken.length ≠ token.length then false
  else xorFold expectedToken token == 0

/-- Model of `UPDATE subscribers SET active = 0 WHERE email = ?`. -/
def deactivateByEmail (db : List Subscriber) (e : String) : List Subscriber :=
  db.map (fun r => if r.email = e then { r with active := false } else r)

/-- Model of `unsubscribeRoute.get('/')`: both query parameters must be present
and nonempty; the token must pass `validateHmacToken` against the
normalized e-mail; on success every row with that e-mail is
deactivated and the success page is returned even when no row matches. -/
def unsubscribe (hmac : String → String → List Nat) (secret : String)
    (db : List Subscriber) (email token : Option String) :
    HtmlResp × List Subscriber :=
  if !otruthy email || !otruthy token then
    (.errorPage "Invalid unsubscribe link." 400, db)
  else
    let normalizedEmail := jsTrim (jsToLower (email.getD ""))
    if !validateHmacToken hmac secret normalizedEmail (token.getD "") then
      (.errorPage "Invalid unsubscribe link." 403, db)
    else
      (.success, deactivateByEmail db normalizedEmail)

/-- Model of `parseInt(s, 10)`: skip leading whitespace, read an optional sign
and then a maximal run of decimal digits; no digits means `NaN`,
modelled as `none`. -/
def parseIntJS (s : String) : Option Int :=
  let cs := s.data.dropWhile isJsWhitespace
  let signAndRest : Int × List Char :=
    match cs with
    | '-' :: rest => (-1, rest)
    | '+' :: rest => (1, rest)
    | _ => (1, cs)
  let ds := signAndRest.2.takeWhile (fun c => '0' ≤ c && c ≤ '9')
  if ds.isEmpty then none
  else some (signAndRest.1 * Int.ofNat (ds.foldl (fun a c => a * 10 + (c.toNat - 48)) 0))

/-- One entry of the archive index (`ReportMeta` in types.ts).  `days`
and `total_items` come from `parseInt` and may be `NaN`, modelled as
`Option Int` with `none` for `NaN`. -/
structure ReportMeta where
  id : String
  date_range_start : String
  date_range_end : String
  generated_at : String
  title : String
  summary : String
  r2_key : String
  days : Option Int
  total_items : Option Int
deriving Repr, DecidableEq

instance : Inhabited ReportMeta :=
  ⟨⟨"", "", "", "", "", "", "", none, none⟩⟩

/-- The single JSON blob stored under `archive-index` (`ArchiveIndex`). -/
structure ArchiveIndex where
  reports : List ReportMeta
  updated_at : String
deriving Repr, DecidableEq

/-- The storage the archive routes touch: the KV blob (none when the
key was never written) and the R2 bucket as a partial map. -/
structure ArchiveState where
  kv : Option ArchiveIndex
  r2 : String → Option String

/-- Model of `getArchiveIndex`: the stored blob, or a fresh empty index. -/
def getArchiveIndex (kv : Option ArchiveIndex) (now : String) : ArchiveIndex :=
  match kv with
  | none => ⟨[], now⟩
  | some i => i

/-- Model of `isAuthorized`: the `Authorization` header must be
`Bearer <ADMIN_API_SECRET>`. -/
def isAuthorized (authHeader : Option String) (adminSecret : String) : Bool :=
  match authHeader with
  | none => false
  | some h =>
      "Bearer ".data.isPrefixOf h.data && (h.data.drop 7 == adminSecret.data)

/-- Ordinal (code-unit) lexicographic comparison of character lists:
the order `localeCompare` induces on these ASCII date strings. -/
def charListLe : List Char → List Char → Bool
  | [], _ => true
  | _ :: _, [] => false
  | c :: cs, d :: ds => if c = d then charListLe cs ds else decide (c.toNat < d.toNat)

/-- The comparator of the re-sort in the POST handler,
`(a, b) => b.date_range_end.localeCompare(a.date_range_end)`, as the
"may come first" relation of a stable sort: `a` may precede `b` when
`b.date_range_end ≤ a.date_range_end`. -/
def reportLe (a b : ReportMeta) : Bool :=
  charListLe b.date_range_end.data a.date_range_end.data

/-- Stable insertion into a descending-sorted list: the new entry goes
in front of the first position it may precede, so an entry inserted
from earlier in the original list stays in front of later ties. -/
def insertSorted (m : ReportMeta) : List ReportMeta → List ReportMeta
  | [] => [m]
  | x :: xs => if reportLe m x then m :: x :: xs else x :: insertSorted m xs

/-- Model of `index.reports.sort(...)`: JavaScript `Array.prototype.sort` is
stable, modelled by a stable insertion sort under `reportLe`. -/
def sortReports : List ReportMeta → List ReportMeta
  | [] => []
  | x :: xs => insertSorted x (sortReports xs)

/-- The read-modify-write step of the POST handler: find an existing
entry with the same id — replace it in place when present, append when
absent (`index.reports[existingIndex] = reportMeta` /
`index.reports.push(reportMeta)`). -/
def upsertReport (l : List ReportMeta) (m : ReportMeta) : List ReportMeta :=
  match l.findIdx? (fun r => r.id == m.id) with
  | some i => l.set i m
  | none => l ++ [m]

/-- The metadata headers of a POST /archive request. -/
structure ReqHeaders where
  reportId : Option String
  dateStart : Option String
  dateEnd : Option String
  generatedAt : Option String
  title : Option String
  summary : Option String
  days : Option String
  totalItems : Option String
deriving Repr

/-- The `ReportMeta` value the POST handler constructs from the
headers (all headers already checked truthy). -/
def mkReportMeta (h : ReqHeaders) : ReportMeta :=
  { id := h.reportId.getD ""
    date_range_start := h.dateStart.getD ""
    date_range_end := h.dateEnd.getD ""
    generated_at := h.generatedAt.getD ""
    title := h.title.getD ""
    summary := h.summary.getD ""
    r2_key := "reports/" ++ h.reportId.getD "" ++ ".html"
    days := parseIntJS (h.days.getD "")
    total_items := parseIntJS (h.totalItems.getD "") }

/-- JSON envelope of the archive admin routes, with the `ReportMeta`
payload when present. -/
structure ArchResp where
  success : Bool
  message : Option String := none
  error : Option String := none
  data : Option ReportMeta := none
  status : Nat := 200
deriving Repr, DecidableEq

/-- Model of `archiveRoute.post('/')`: authorize, validate headers and body,
write the body to R2 under `reports/{id}.html`, replace-or-append the
entry in the index, re-sort by `date_range_end` descending, persist. -/
def putReport (adminSecret : String) (auth : Option String) (h : ReqHeaders)
    (body : String) (now : String) (st : ArchiveState) : ArchResp × ArchiveState :=
  if !isAuthorized auth adminSecret then
    (⟨false, none, some "Unauthorized", none, 401⟩, st)
  else if !(otruthy h.reportId && otruthy h.dateStart && otruthy h.dateEnd &&
            otruthy h.generatedAt && otruthy h.title && otruthy h.summary &&
            otruthy h.days && otruthy h.totalItems) then
    (⟨false, none,
      some "Missing required headers: X-Report-Id, X-Date-Start, X-Date-End, X-Generated-At, X-Title, X-Summary, X-Days, X-Total-Items",
      none, 400⟩, st)
  else if body = "" || (jsTrim body).length = 0 then
    (⟨false, none, some "Request body must contain HTML content", none, 400⟩, st)
  else
    let reportId := h.reportId.getD ""
    let r2Key := "reports/" ++ reportId ++ ".html"
    let reportMeta := mkReportMeta h
    let r2' := fun k => if k = r2Key then some body else st.r2 k
    let index := getArchiveIndex st.kv now
    let isUpdate := (index.reports.findIdx? (fun r => r.id == reportId)).isSome
    (⟨true, some (if isUpdate then "Report updated" else "Report uploaded"),
      none, some reportMeta, if isUpdate then 200 else 201⟩,
     ⟨some ⟨sortReports (upsertReport index.reports reportMeta), now⟩, r2'⟩)

/-- Outcome of GET /archive/:id: the raw HTML page, or the JSON error
envelope with its status. -/
inductive GetResp where
  | page (body : String) (status : Nat)
  | jsonError (error : String) (status : Nat)
deriving Repr, DecidableEq

/-- Model of `archiveRoute.get('/:id')`: look the id up in the index, then fetch
the body from R2 at the recorded `r2_key`. -/
def getReport (st : ArchiveState) (now id : String) : GetResp :=
  let index := getArchiveIndex st.kv now
  match index.reports.find? (fun r => r.id == id) with
  | none => .jsonError "Report not found" 404
  | some report =>
    match st.r2 report.r2_key with
    | none => .jsonError "Report content not found in storage" 404
    | some html => .page html 200

/-- Model of `archiveRoute.get('/')`: the index returned to the caller. -/
def getIndexRoute (st : ArchiveState) (now : String) : ArchiveIndex :=
  getArchiveIndex st.kv now

/-- The field update of the PATCH handler: overwrite exactly the truthy
fields (`if (body.title) ...; if (body.summary) ...`) of the entry at
position `i`. -/
def patchEntry (l : List ReportMeta) (i : Nat) (title summary : Option String) :
    ReportMeta :=
  let entry0 := l.getD i default
  let entry1 := if otruthy title then { entry0 with title := title.getD "" } else entry0
  if otruthy summary then { entry1 with summary := summary.getD "" } else entry1

/-- Model of `archiveRoute.patch('/:id')`: authorize; reject a body with neither
a truthy `title` nor a truthy `summary`; 404 when the id is absent;
otherwise overwrite exactly the truthy fields of the entry and
persist without re-sorting. -/
def patchReportMeta (adminSecret : String) (auth : Option String) (st : ArchiveState)
    (now id : String) (title summary : Option String) : ArchResp × ArchiveState :=
  if !isAuthorized auth adminSecret then
    (⟨false, none, some "Unauthorized", none, 401⟩, st)
  else if !otruthy title && !otruthy summary then
    (⟨false, none, some "Request body must contain at least one of: title, summary",
      none, 400⟩, st)
  else
    let index := getArchiveIndex st.kv now
    match index.reports.findIdx? (fun r => r.id == id) with
    | none => (⟨false, none, some "Report not found", none, 404⟩, st)
    | some i =>
      (⟨true, some "Report metadata updated", none,
        some (patchEntry index.reports i title summary), 200⟩,
       ⟨some ⟨index.reports.set i (patchEntry index.reports i title summary), now⟩,
        st.r2⟩)

/-- View helper: the report list the caller sees in the stored index. -/
def storedReports (st : ArchiveState) (now : String) : List ReportMeta :=
  (getArchiveIndex st.kv now).reports

/-- Fixture: a 32-character verification token. -/
def tokenA : String := "0123456789abcdef0123456789abcdef"

/-- Fixture: one pending (unverified) subscriber holding `tokenA`. -/
def dbPending : List Subscriber :=
  [⟨1, "a@x.com", none, some tokenA, false, true, 0, none⟩]

/-- Fixture: an unverified subscriber with a non-empty stored name. -/
def rowOldName : Subscriber :=
  ⟨1, "a@x.com", some "Old", none, false, false, 0, none⟩

/-- Fixture: storage before any archive write. -/
def emptyArchive : ArchiveState := ⟨none, fun _ => none⟩

/-- Fixture: a well-formed admin Authorization header for secret `sekr`. -/
def adminAuth : Option String := some "Bearer sekr"

/-- Fixture: report headers with id `a`, date range ending 2025-12-01. -/
def hdrA : ReqHeaders :=
  ⟨some "a", some "2025-11-29", some "2025-12-01", some "g", some "t", some "s",
   some "3", some "7"⟩

/-- Fixture: report headers with id `b` and the same date range end as `hdrA`. -/
def hdrB : ReqHeaders :=
  ⟨some "b", some "2025-11-29", some "2025-12-01", some "g", some "t", some "s",
   some "3", some "7"⟩

/-- Fixture: report headers with id `c`, date range ending 2025-12-05. -/
def hdrC : ReqHeaders :=
  ⟨some "c", some "2025-12-03", some "2025-12-05", some "g", some "t", some "s",
   some "3", some "7"⟩

/-- Fixture: an index entry for id `x` whose body is missing from R2. -/
def stMissingBody : ArchiveState :=
  ⟨some ⟨[⟨"x", "2024-12-31", "2025-01-01", "g", "t", "s", "reports/x.html",
          none, none⟩], "u"⟩, fun _ => none⟩

/-- Fixture: report headers whose `X-Days` value is not numeric. -/
def hdrNaN : ReqHeaders :=
  ⟨some "a", some "2025-11-29", some "2025-12-01", some "g", some "t", some "s",
   some "zz", some "yy"⟩

/- ### Helper lemmas -/

theorem lor_eq_zero_iff (x y : Nat) : x ||| y = 0 ↔ x = 0 ∧ y = 0 := by
  constructor
  · intro h
    have hb : ∀ i, x.testBit i = false ∧ y.testBit i = false := by
      intro i
      have h2 := Nat.testBit_or x y i
      rw [h] at h2
      simp [Nat.zero_testBit] at h2
      exact h2
    exact ⟨Nat.eq_of_testBit_eq (fun i => by simp [(hb i).1, Nat.zero_testBit]),
           Nat.eq_of_testBit_eq (fun i => by simp [(hb i).2, Nat.zero_testBit])⟩
  · rintro ⟨rfl, rfl⟩; rfl

theorem foldl_lor_eq_zero_iff (f : Nat → Nat) (l : List Nat) (a : Nat) :
    (l.foldl (fun acc i => acc ||| f i) a = 0) ↔ (a = 0 ∧ ∀ i ∈ l, f i = 0) := by
  induction l generalizing a with
  | nil => simp
  | cons x xs ih =>
    rw [List.foldl_cons, ih, lor_eq_zero_iff, List.forall_mem_cons, and_assoc]

theorem char_eq_of_toNat_eq {c d : Char} (h : c.toNat = d.toNat) : c = d :=
  Char.ext (UInt32.toNat.inj h)

theorem chars_eq_of_codes (x : List Char) (y : List Char) (hl : x.length = y.length)
    (h : ∀ i, i < x.length →
      (x.getD i (Char.ofNat 0)).toNat = (y.getD i (Char.ofNat 0)).toNat) :
    x = y := by
  induction x generalizing y with
  | nil =>
    cases y with
    | nil => rfl
    | cons d ds => simp at hl
  | cons c cs ih =>
    cases y with
    | nil => simp at hl
    | cons d ds =>
      have h0 : c = d := char_eq_of_toNat_eq (by simpa using h 0 (by simp))
      have hrest : cs = ds := by
        refine ih ds (by simpa using hl) (fun i hi => ?_)
        simpa using h (i + 1) (by simpa using Nat.succ_lt_succ hi)
      rw [h0, hrest]

theorem string_eq_of_codes (a b : String) (hl : a.length = b.length)
    (h : ∀ i, i < a.length → charCodeAt a i = charCodeAt b i) : a = b :=
  String.ext (chars_eq_of_codes a.data b.data hl h)

/-- The XOR-accumulator comparison of `validateHmacToken` accepts exactly
when the supplied token equals the regenerated expected token. -/
theorem validateHmacToken_eq_true_iff (hmac : String → String → List Nat)
    (secret email token : String) :
    validateHmacToken hmac secret email token = true ↔
      token = generateHmacToken hmac secret email := by
  unfold validateHmacToken
  by_cases hl : (generateHmacToken hmac secret email).length = token.length
  · rw [if_neg (by simpa using hl)]
    unfold xorFold
    rw [beq_iff_eq, foldl_lor_eq_zero_iff]
    simp only [List.mem_range, true_and]
    constructor
    · intro hcodes
      exact (string_eq_of_codes _ token hl
        (fun i hi => Nat.xor_eq_zero.mp (hcodes i hi))).symm
    · intro heq
      subst heq
      exact fun i _ => Nat.xor_self _
  · rw [if_pos (by simpa using hl)]
    simp only [Bool.false_eq_true, false_iff]
    intro heq
    subst heq
    exact hl rfl

theorem find?_email_map (f : Subscriber → Subscriber)
    (hf : ∀ x, (f x).email = x.email) (l : List Subscriber) (e : String) :
    (l.map f).find? (fun r => r.email == e) =
      (l.find? (fun r => r.email == e)).map f := by
  induction l with
  | nil => rfl
  | cons x xs ih =>
    cases hx : (x.email == e) with
    | true =>
      simp only [List.map_cons, List.find?_cons, hf x, hx]
      rfl
    | false =>
      simp only [List.map_cons, List.find?_cons, hf x, hx]
      exact ih

theorem find?_eq_some_of_unique {α : Type} (p : α → Bool) (l : List α) (x : α)
    (hmem : x ∈ l) (hp : p x = true) (huniq : ∀ y ∈ l, p y = true → y = x) :
    l.find? p = some x := by
  induction l with
  | nil => cases hmem
  | cons a as ih =>
    cases ha : p a with
    | true =>
      have hax : a = x := huniq a (List.mem_cons_self a as) ha
      subst hax
      simp only [List.find?_cons, ha]
    | false =>
      have hmem' : x ∈ as := by
        rcases List.mem_cons.mp hmem with hxa | hxas
        · exfalso
          rw [hxa] at hp
          rw [hp] at ha
          cases ha
        · exact hxas
      simp only [List.find?_cons, ha]
      exact ih hmem' (fun y hy hpy => huniq y (List.mem_cons_of_mem a hy) hpy)

theorem set_self_of_get {α : Type} (l : List α) (i : Nat) (h : i < l.length) :
    l.set i (l.get ⟨i, h⟩) = l := by
  apply List.ext_getElem?
  intro j
  rw [List.getElem?_set]
  by_cases hij : i = j
  · subst hij
    rw [if_pos rfl, if_pos h, List.getElem?_eq_getElem h, List.get_eq_getElem]
  · rw [if_neg hij]

theorem charListLe_trans : ∀ (a b c : List Char), charListLe a b = true →
    charListLe b c = true → charListLe a c = true
  | [], _, _, _, _ => rfl
  | _ :: _, [], _, h1, _ => by simp [charListLe] at h1
  | _ :: _, _ :: _, [], _, h2 => by simp [charListLe] at h2
  | x :: xs, y :: ys, z :: zs, h1, h2 => by
    simp only [charListLe] at h1 h2 ⊢
    by_cases hxy : x = y
    · subst hxy
      rw [if_pos rfl] at h1
      by_cases hxz : x = z
      · subst hxz
        rw [if_pos rfl] at h2 ⊢
        exact charListLe_trans xs ys zs h1 h2
      · rw [if_neg hxz] at h2 ⊢
        exact h2
    · rw [if_neg hxy] at h1
      by_cases hyz : y = z
      · subst hyz
        by_cases hxz : x = y
        · exact absurd hxz hxy
        · rw [if_neg hxz]
          exact h1
      · rw [if_neg hyz] at h2
        have hlt : x.toNat < z.toNat :=
          Nat.lt_trans (of_decide_eq_true h1) (of_decide_eq_true h2)
        have hxz : x ≠ z := fun he => absurd (congrArg Char.toNat he) (Nat.ne_of_lt hlt)
        rw [if_neg hxz]
        exact decide_eq_true hlt

theorem charListLe_total : ∀ (a b : List Char),
    charListLe a b = true ∨ charListLe b a = true
  | [], _ => Or.inl rfl
  | _ :: _, [] => Or.inr rfl
  | x :: xs, y :: ys => by
    by_cases hxy : x = y
    · subst hxy
      rcases charListLe_total xs ys with h | h
      · exact Or.inl (by simpa [charListLe] using h)
      · exact Or.inr (by simpa [charListLe] using h)
    · have hne : x.toNat ≠ y.toNat := fun he => hxy (char_eq_of_toNat_eq he)
      rcases Nat.lt_or_ge x.toNat y.toNat with h | h
      · exact Or.inl (by simp [charListLe, hxy, h])
      · have hgt : y.toNat < x.toNat := lt_of_le_of_ne h (Ne.symm hne)
        exact Or.inr (by simp [charListLe, Ne.symm hxy, hgt])

theorem charListLe_antisymm : ∀ {a b : List Char}, charListLe a b = true →
    charListLe b a = true → a = b
  | [], [], _, _ => rfl
  | [], _ :: _, _, h2 => by simp [charListLe] at h2
  | _ :: _, [], h1, _ => by simp [charListLe] at h1
  | x :: xs, y :: ys, h1, h2 => by
    by_cases hxy : x = y
    · subst hxy
      simp only [charListLe, if_pos rfl] at h1 h2
      rw [charListLe_antisymm h1 h2]
    · simp only [charListLe, if_neg hxy, if_neg (Ne.symm hxy)] at h1 h2
      exact absurd (Nat.lt_trans (of_decide_eq_true h1) (of_decide_eq_true h2))
        (Nat.lt_irrefl _)

theorem reportLe_trans {a b c : ReportMeta} (h1 : reportLe a b = true)
    (h2 : reportLe b c = true) : reportLe a c = true :=
  charListLe_trans _ _ _ h2 h1

theorem reportLe_of_not_reportLe {a b : ReportMeta} (h : ¬ reportLe a b = true) :
    reportLe b a = true := by
  rcases charListLe_total b.date_range_end.data a.date_range_end.data with hc | hc
  · exact absurd hc h
  · exact hc

/-- Two entries comparable both ways have the same sort key. -/
theorem date_eq_of_reportLe_both {a b : ReportMeta} (h1 : reportLe a b = true)
    (h2 : reportLe b a = true) : a.date_range_end = b.date_range_end :=
  String.ext (charListLe_antisymm h2 h1)

theorem insertSorted_perm (m : ReportMeta) (l : List ReportMeta) :
    (insertSorted m l).Perm (m :: l) := by
  induction l with
  | nil => exact List.Perm.refl _
  | cons x xs ih =>
    unfold insertSorted
    by_cases h : reportLe m x = true
    · rw [if_pos h]
    · rw [if_neg h]
      exact (ih.cons x).trans (List.Perm.swap m x xs)

theorem mem_insertSorted {y m : ReportMeta} {l : List ReportMeta}
    (hy : y ∈ insertSorted m l) : y = m ∨ y ∈ l := by
  have := (insertSorted_perm m l).mem_iff.mp hy
  simpa using this

theorem insertSorted_sorted (m : ReportMeta) (l : List ReportMeta)
    (hs : List.Pairwise (fun a b => reportLe a b = true) l) :
    List.Pairwise (fun a b => reportLe a b = true) (insertSorted m l) := by
  induction l with
  | nil => exact .cons (by simp) .nil
  | cons x xs ih =>
    rcases List.pairwise_cons.mp hs with ⟨hx, hxs⟩
    unfold insertSorted
    by_cases h : reportLe m x = true
    · rw [if_pos h]
      refine List.pairwise_cons.mpr ⟨?_, hs⟩
      intro y hy
      rcases List.mem_cons.mp hy with rfl | hymem
      · exact h
      · exact reportLe_trans h (hx y hymem)
    · rw [if_neg h]
      have hmx : reportLe x m = true := reportLe_of_not_reportLe h
      refine List.pairwise_cons.mpr ⟨?_, ih hxs⟩
      intro y hy
      rcases mem_insertSorted hy with rfl | hymem
      · exact hmx
      · exact hx y hymem

/-- The re-sorted list is descending in `date_range_end`. -/
theorem sortReports_sorted (l : List ReportMeta) :
    List.Pairwise (fun a b => reportLe a b = true) (sortReports l) := by
  induction l with
  | nil => simp [sortReports]
  | cons x xs ih => exact insertSorted_sorted x (sortReports xs) ih

theorem sortReports_perm (l : List ReportMeta) : (sortReports l).Perm l := by
  induction l with
  | nil => exact List.Perm.refl _
  | cons x xs ih =>
    exact (insertSorted_perm x (sortReports xs)).trans (ih.cons x)

/-- Sorting is insensitive to the input order as soon as the sort keys
are pairwise distinct: any two permuted report lists with distinct
`date_range_end` values sort to the same list. -/
theorem sortReports_eq_of_perm (l1 l2 : List ReportMeta) (hperm : l1.Perm l2)
    (hnd : (l1.map (fun r => r.date_range_end)).Nodup) :
    sortReports l1 = sortReports l2 := by
  have hp1 := sortReports_perm l1
  have hp2 := sortReports_perm l2
  have hp : (sortReports l1).Perm (sortReports l2) :=
    hp1.trans (hperm.trans hp2.symm)
  have strict : ∀ m : List ReportMeta,
      (m.map (fun r => r.date_range_end)).Nodup →
      List.Pairwise (fun a b => reportLe a b = true) m →
      List.Pairwise (fun a b : ReportMeta =>
        reportLe a b = true ∧ a.date_range_end ≠ b.date_range_end) m := by
    intro m hmn hms
    have hne : List.Pairwise
        (fun a b : ReportMeta => a.date_range_end ≠ b.date_range_end) m :=
      List.pairwise_map.mp hmn
    exact hms.and hne
  have hnd1 : ((sortReports l1).map (fun r => r.date_range_end)).Nodup :=
    ((hp1.map (fun r => r.date_range_end)).symm).nodup hnd
  have hnd2' : (l2.map (fun r => r.date_range_end)).Nodup :=
    (hperm.map (fun r => r.date_range_end)).nodup hnd
  have hnd2 : ((sortReports l2).map (fun r => r.date_range_end)).Nodup :=
    ((hp2.map (fun r => r.date_range_end)).symm).nodup hnd2'
  haveI : IsAntisymm ReportMeta (fun a b : ReportMeta =>
      reportLe a b = true ∧ a.date_range_end ≠ b.date_range_end) :=
    ⟨fun a b h1 h2 => absurd (date_eq_of_reportLe_both h1.1 h2.1) h1.2⟩
  exact List.eq_of_perm_of_sorted hp
    (strict _ hnd1 (sortReports_sorted l1))
    (strict _ hnd2 (sortReports_sorted l2))

theorem mem_upsertReport (l : List ReportMeta) (m : ReportMeta) :
    m ∈ upsertReport l m := by
  unfold upsertReport
  cases hf : l.findIdx? (fun r => r.id == m.id) with
  | none => simp
  | some i =>
    obtain ⟨hlt, -, -⟩ := List.findIdx?_eq_some_iff_getElem.mp hf
    exact List.mem_set l i hlt m

theorem upsertReport_unique (l : List ReportMeta) (m : ReportMeta)
    (hnd : (l.map (fun r => r.id)).Nodup) :
    ∀ y ∈ upsertReport l m, y.id = m.id → y = m := by
  unfold upsertReport
  cases hf : l.findIdx? (fun r => r.id == m.id) with
  | none =>
    intro y hy hid
    rcases List.mem_append.mp hy with hyl | hym
    · exfalso
      have hfalse := List.findIdx?_eq_none_iff.mp hf y hyl
      simp [hid] at hfalse
    · simpa using hym
  | some i =>
    intro y hy hid
    obtain ⟨hlt, hpi, -⟩ := List.findIdx?_eq_some_iff_getElem.mp hf
    obtain ⟨j, hj, hjy⟩ := List.mem_iff_getElem.mp hy
    by_cases hij : i = j
    · subst hij
      rw [List.getElem_set_self] at hjy
      exact hjy.symm
    · rw [List.getElem_set_ne hij] at hjy
      have hjlen : j < l.length := by simpa using hj
      exfalso
      have hidi : l[i].id = m.id := by simpa using hpi
      have hmapnd := hnd
      have hjm : j < (l.map (fun r => r.id)).length := by simpa using hjlen
      have him : i < (l.map (fun r => r.id)).length := by simpa using hlt
      have hji : (l.map (fun r => r.id)).get (Fin.mk j hjm) =
          (l.map (fun r => r.id)).get (Fin.mk i him) := by
        simp only [List.get_eq_getElem, List.getElem_map]
        rw [hjy, hid, hidi]
      have hfin := List.nodup_iff_injective_get.mp hmapnd hji
      have hj_eq : j = i := congrArg Fin.val hfin
      exact hij hj_eq.symm

theorem upsertReport_nodup (l : List ReportMeta) (m : ReportMeta)
    (hnd : (l.map (fun r => r.id)).Nodup) :
    ((upsertReport l m).map (fun r => r.id)).Nodup := by
  unfold upsertReport
  cases hf : l.findIdx? (fun r => r.id == m.id) with
  | none =>
    rw [List.map_append, List.nodup_append]
    refine ⟨hnd, by simp, ?_⟩
    intro a ha hb
    have hab : a = m.id := by simpa using hb
    subst hab
    rcases List.mem_map.mp ha with ⟨x, hx, hxid⟩
    have hfalse := List.findIdx?_eq_none_iff.mp hf x hx
    simp [hxid] at hfalse
  | some i =>
    obtain ⟨hlt, hpi, -⟩ := List.findIdx?_eq_some_iff_getElem.mp hf
    rw [List.map_set]
    have hmlt : i < (l.map (fun r => r.id)).length := by simpa using hlt
    have hval : (l.map (fun r => r.id)).get ⟨i, hmlt⟩ = m.id := by
      simp only [List.get_eq_getElem, List.getElem_map]
      simpa using hpi
    rw [← hval, set_self_of_get _ _ hmlt]
    exact hnd

/-- After an upsert with unique ids, the (re-sorted) index has exactly
one entry with the new id, and `find?` returns it. -/
theorem find?_sortReports_upsert (l : List ReportMeta) (m : ReportMeta)
    (hnd : (l.map (fun r => r.id)).Nodup) :
    (sortReports (upsertReport l m)).find? (fun r => r.id == m.id) = some m := by
  apply find?_eq_some_of_unique
  · exact ((sortReports_perm (upsertReport l m)).mem_iff).mpr (mem_upsertReport l m)
  · simp
  · intro y hy hpy
    exact upsertReport_unique l m hnd y
      ((sortReports_perm (upsertReport l m)).mem_iff.mp hy) (by simpa using hpy)

/-- With both parameters present, a shape-valid e-mail and a passing
captcha, `subscribe` reaches the existing-subscriber dispatch. -/
theorem subscribe_reduce (now nid : Nat) (db : List Subscriber) (email : String)
    (name : Option String) (tok : String) (he : email ≠ "") (ht : tok ≠ "")
    (hre : emailRegexTest (jsTrim (jsToLower email)) = true) :
    subscribe true none now nid db (some email) name (some tok) =
      match findByEmail db (jsTrim (jsToLower email)) with
      | some existing =>
        if existing.verified && existing.active then
          (⟨true, some "You are already subscribed!", none, 200⟩, db)
        else if existing.verified && !existing.active then
          (⟨true, some "Welcome back! Subscription reactivated.", none, 200⟩,
           updateWhereId db existing.id (fun r => { r with active := true }))
        else
          (⟨true, some "You're subscribed! You'll receive the next newsletter.", none, 200⟩,
           updateWhereId db existing.id (fun r =>
             { r with verified := true, verified_at := some now, active := true,
                      name := match sanitizeName name with
                              | some n => some n
                              | none => r.name }))
      | none =>
        (⟨true, some "You're subscribed! You'll receive the next newsletter.", none, 200⟩,
         db ++ [⟨nid, jsTrim (jsToLower email), sanitizeName name, none, true, true,
                 now, some now⟩]) := by
  have h1 : otruthy (some email) = true := by simp [otruthy, he]
  have h2 : otruthy (some tok) = true := by simp [otruthy, ht]
  unfold subscribe
  rw [h1, h2]
  simp only [Bool.not_true, Bool.false_eq_true, if_false, Option.getD_some, hre]

/-- Any `subscribe` call that passes the boundary checks with a passing
captcha succeeds and leaves the row for that e-mail verified and active. -/
theorem subscribe_success (now nid : Nat) (db : List Subscriber) (email : String)
    (name : Option String) (tok : String) (he : email ≠ "") (ht : tok ≠ "")
    (hre : emailRegexTest (jsTrim (jsToLower email)) = true) :
    (subscribe true none now nid db (some email) name (some tok)).1.success = true ∧
    ∃ r, findByEmail (subscribe true none now nid db (some email) name (some tok)).2
        (jsTrim (jsToLower email)) = some r ∧ r.verified = true ∧ r.active = true := by
  rw [subscribe_reduce now nid db email name tok he ht hre]
  cases hfind : findByEmail db (jsTrim (jsToLower email)) with
  | none =>
    refine ⟨rfl, ⟨nid, jsTrim (jsToLower email), sanitizeName name, none, true, true,
                  now, some now⟩, ?_, rfl, rfl⟩
    unfold findByEmail at hfind ⊢
    rw [List.find?_append, hfind]
    simp
  | some ex =>
    cases hv : ex.verified with
    | true =>
      cases ha : ex.active with
      | true =>
        simp only [hv, ha, Bool.and_self, if_true]
        exact ⟨trivial, ex, hfind, hv, ha⟩
      | false =>
        simp only [hv, ha, Bool.and_false, Bool.and_true, Bool.not_false,
          Bool.false_eq_true, if_false, if_true]
        refine ⟨trivial, { ex with active := true }, ?_, hv, rfl⟩
        unfold updateWhereId findByEmail
        rw [find?_email_map (fun r => if r.id = ex.id then { r with active := true } else r)
          (fun x => by by_cases hx : x.id = ex.id <;> simp [hx])]
        unfold findByEmail at hfind
        rw [hfind]
        simp
    | false =>
      simp only [hv, Bool.false_and, Bool.false_eq_true, if_false]
      refine ⟨trivial,
        { ex with verified := true, verified_at := some now, active := true,
                  name := match sanitizeName name with
                          | some n => some n
                          | none => ex.name }, ?_, rfl, rfl⟩
      unfold updateWhereId findByEmail
      rw [find?_email_map _
        (fun x => by by_cases hx : x.id = ex.id <;> simp [hx])]
      unfold findByEmail at hfind
      rw [hfind]
      simp

/-- With authorization, all metadata headers present and a non-blank
body, `putReport` reaches the storage writes. -/
theorem putReport_reduce (adminSecret : String) (auth : Option String)
    (h : ReqHeaders) (body now : String) (st : ArchiveState)
    (hauth : isAuthorized auth adminSecret = true)
    (hh : (otruthy h.reportId && otruthy h.dateStart && otruthy h.dateEnd &&
           otruthy h.generatedAt && otruthy h.title && otruthy h.summary &&
           otruthy h.days && otruthy h.totalItems) = true)
    (hb : body ≠ "") (hbt : jsTrim body ≠ "") :
    putReport adminSecret auth h body now st =
      (⟨true,
        some (if ((getArchiveIndex st.kv now).reports.findIdx?
                (fun r => r.id == h.reportId.getD "")).isSome
              then "Report updated" else "Report uploaded"),
        none, some (mkReportMeta h),
        if ((getArchiveIndex st.kv now).reports.findIdx?
                (fun r => r.id == h.reportId.getD "")).isSome
        then 200 else 201⟩,
       ⟨some ⟨sortReports (upsertReport (getArchiveIndex st.kv now).reports
                (mkReportMeta h)), now⟩,
        fun k => if k = "reports/" ++ h.reportId.getD "" ++ ".html"
                 then some body else st.r2 k⟩) := by
  unfold putReport
  rw [hauth, hh]
  simp only [Bool.not_true, Bool.false_eq_true, if_false]
  rw [if_neg (by
    simp only [hb, decide_not, Bool.or_eq_true, decide_eq_true_eq, false_or]
    intro hz
    exact hbt (String.ext (List.length_eq_zero.mp hz)))]

/- ### Claim theorems -/

/-- C1, counterexample: the claim says a second `Verify` with the same
token still succeeds.  On a table with one unverified row holding the
token, the first call succeeds and clears the token, and the second
call with the same token fails with the 404 error page. -/
theorem C1_counterexample :
    (verify 5 dbPending (some tokenA)).1 = HtmlResp.success ∧
    (verify 6 (verify 5 dbPending (some tokenA)).2 (some tokenA)).1 =
      HtmlResp.errorPage "This link is invalid or has expired." 404 := by
  exact ⟨rfl, rfl⟩

/-- C1 (amended): for every subscriber row that is unverified and holds
a verification token `t` (no other row holding `t`), after `Verify(t)`
succeeds — setting `verified` and clearing the token — a second call
with the same token `t` fails with `NotFound`: the token is single-use. -/
theorem C1_verify_single_use (db : List Subscriber) (now now' : Nat) (t : String)
    (r : Subscriber) (hlen : t.length = 32)
    (hfind : db.find? (fun x => x.verification_token == some t) = some r)
    (hunv : r.verified = false)
    (huniq : ∀ x ∈ db, x.verification_token = some t → x = r) :
    (verify now db (some t)).1 = HtmlResp.success ∧
    verify now' (verify now db (some t)).2 (some t) =
      (HtmlResp.errorPage "This link is invalid or has expired." 404,
       (verify now db (some t)).2) := by
  have hv : verify now db (some t) =
      (HtmlResp.success, updateWhereId db r.id (fun x =>
        { x with verified := true, verification_token := none,
                 verified_at := some now })) := by
    simp [verify, hfind, hunv, hlen]
  have hnone : (updateWhereId db r.id (fun x =>
      { x with verified := true, verification_token := none,
               verified_at := some now })).find?
      (fun x => x.verification_token == some t) = none := by
    rw [List.find?_eq_none]
    intro x hx
    unfold updateWhereId at hx
    rcases List.mem_map.mp hx with ⟨y, hy, hyx⟩
    by_cases hid : y.id = r.id
    · rw [← hyx]
      simp [hid]
    · rw [← hyx]
      simp only [hid, if_false, beq_iff_eq]
      intro hcontra
      exact hid (congrArg Subscriber.id (huniq y hy hcontra))
  constructor
  · rw [hv]
  · rw [hv]
    simp [verify, hnone, hlen]

/-- C1 witness: the amended theorem applied to the one-row fixture. -/
theorem C1_verify_single_use_witness :
    (verify 5 dbPending (some tokenA)).1 = HtmlResp.success ∧
    verify 6 (verify 5 dbPending (some tokenA)).2 (some tokenA) =
      (HtmlResp.errorPage "This link is invalid or has expired." 404,
       (verify 5 dbPending (some tokenA)).2) :=
  C1_verify_single_use dbPending 5 6 tokenA
    ⟨1, "a@x.com", none, some tokenA, false, true, 0, none⟩
    (by decide) (by decide) rfl (by decide)

/-- C2: `Unsubscribe(email, token)` (with both query parameters present
and nonempty) fails with the 403 error page and an unchanged table
unless the token equals the hex HMAC-SHA256 of the lower-cased,
trimmed e-mail — the XOR-accumulator comparison accepts exactly on
equality; on a valid token it sets `active := false` on every row with
that e-mail and returns the success page even when no row matches. -/
theorem C2_unsubscribe_hmac_gate (hmac : String → String → List Nat)
    (secret : String) (db : List Subscriber) (email token : String)
    (he : email ≠ "") (ht : token ≠ "") :
    (validateHmacToken hmac secret (jsTrim (jsToLower email)) token = true ↔
       token = generateHmacToken hmac secret (jsTrim (jsToLower email))) ∧
    (token ≠ generateHmacToken hmac secret (jsTrim (jsToLower email)) →
       unsubscribe hmac secret db (some email) (some token) =
         (HtmlResp.errorPage "Invalid unsubscribe link." 403, db)) ∧
    (token = generateHmacToken hmac secret (jsTrim (jsToLower email)) →
       unsubscribe hmac secret db (some email) (some token) =
         (HtmlResp.success, deactivateByEmail db (jsTrim (jsToLower email))) ∧
       (∀ r ∈ deactivateByEmail db (jsTrim (jsToLower email)),
          r.email = jsTrim (jsToLower email) → r.active = false) ∧
       ((∀ r ∈ db, r.email ≠ jsTrim (jsToLower email)) →
          deactivateByEmail db (jsTrim (jsToLower email)) = db)) := by
  have h1 : otruthy (some email) = true := by simp [otruthy, he]
  have h2 : otruthy (some token) = true := by simp [otruthy, ht]
  have hiff := validateHmacToken_eq_true_iff hmac secret
    (jsTrim (jsToLower email)) token
  refine ⟨hiff, ?_, ?_⟩
  · intro hne
    have hvf : validateHmacToken hmac secret (jsTrim (jsToLower email)) token
        = false := by
      cases hcase : validateHmacToken hmac secret (jsTrim (jsToLower email)) token
      · rfl
      · exact absurd (hiff.mp hcase) hne
    unfold unsubscribe
    rw [h1, h2]
    simp only [Bool.not_true, Bool.or_self, Bool.false_eq_true, if_false,
      Option.getD_some, hvf, Bool.not_false, if_true]
  · intro heq
    have hvt : validateHmacToken hmac secret (jsTrim (jsToLower email)) token
        = true := hiff.mpr heq
    refine ⟨?_, ?_, ?_⟩
    · unfold unsubscribe
      rw [h1, h2]
      simp only [Bool.not_true, Bool.or_self, Bool.false_eq_true, if_false,
        Option.getD_some, hvt, Bool.not_true]
    · intro r hr hre
      unfold deactivateByEmail at hr
      rcases List.mem_map.mp hr with ⟨y, hy, hyr⟩
      by_cases hye : y.email = jsTrim (jsToLower email)
      · rw [← hyr]
        simp [hye]
      · exfalso
        rw [← hyr] at hre
        simp only [if_neg hye] at hre
        exact hye hre
    · intro hnomatch
      unfold deactivateByEmail
      have : ∀ r ∈ db,
          (if r.email = jsTrim (jsToLower email)
           then { r with active := false } else r) = id r := by
        intro r hr
        simp [hnomatch r hr]
      rw [List.map_congr_left this, List.map_id]

/-- C2 witness: the theorem at a one-byte HMAC primitive and an empty
table. -/
theorem C2_unsubscribe_hmac_gate_witness :
    (validateHmacToken (fun _ _ => [0]) "s" (jsTrim (jsToLower "a@x.com")) "tk" = true ↔
       "tk" = generateHmacToken (fun _ _ => [0]) "s" (jsTrim (jsToLower "a@x.com"))) ∧
    ("tk" ≠ generateHmacToken (fun _ _ => [0]) "s" (jsTrim (jsToLower "a@x.com")) →
       unsubscribe (fun _ _ => [0]) "s" [] (some "a@x.com") (some "tk") =
         (HtmlResp.errorPage "Invalid unsubscribe link." 403, [])) ∧
    ("tk" = generateHmacToken (fun _ _ => [0]) "s" (jsTrim (jsToLower "a@x.com")) →
       unsubscribe (fun _ _ => [0]) "s" [] (some "a@x.com") (some "tk") =
         (HtmlResp.success, deactivateByEmail [] (jsTrim (jsToLower "a@x.com"))) ∧
       (∀ r ∈ deactivateByEmail [] (jsTrim (jsToLower "a@x.com")),
          r.email = jsTrim (jsToLower "a@x.com") → r.active = false) ∧
       ((∀ r ∈ ([] : List Subscriber), r.email ≠ jsTrim (jsToLower "a@x.com")) →
          deactivateByEmail [] (jsTrim (jsToLower "a@x.com")) = [])) :=
  C2_unsubscribe_hmac_gate (fun _ _ => [0]) "s" [] "a@x.com" "tk"
    (by decide) (by decide)

/-- C3: with a shape-valid e-mail and a passing captcha, two `Subscribe`
calls with the same e-mail both succeed, and afterwards the row for
that e-mail is verified and active — from any starting table. -/
theorem C3_subscribe_idempotent (db : List Subscriber) (now1 now2 nid1 nid2 : Nat)
    (email : String) (name1 name2 : Option String) (tok1 tok2 : String)
    (he : email ≠ "") (ht1 : tok1 ≠ "") (ht2 : tok2 ≠ "")
    (hre : emailRegexTest (jsTrim (jsToLower email)) = true) :
    (subscribe true none now1 nid1 db (some email) name1 (some tok1)).1.success = true ∧
    (subscribe true none now2 nid2
        (subscribe true none now1 nid1 db (some email) name1 (some tok1)).2
        (some email) name2 (some tok2)).1.success = true ∧
    ∃ r, findByEmail (subscribe true none now2 nid2
        (subscribe true none now1 nid1 db (some email) name1 (some tok1)).2
        (some email) name2 (some tok2)).2 (jsTrim (jsToLower email)) = some r ∧
      r.verified = true ∧ r.active = true := by
  obtain ⟨hfst, r, hr, hrv, hra⟩ :=
    subscribe_success now1 nid1 db email name1 tok1 he ht1 hre
  have hsnd : subscribe true none now2 nid2
      (subscribe true none now1 nid1 db (some email) name1 (some tok1)).2
      (some email) name2 (some tok2) =
      (⟨true, some "You are already subscribed!", none, 200⟩,
       (subscribe true none now1 nid1 db (some email) name1 (some tok1)).2) := by
    rw [subscribe_reduce now2 nid2 _ email name2 tok2 he ht2 hre, hr]
    simp [hrv, hra]
  exact ⟨hfst, by rw [hsnd], by rw [hsnd]; exact ⟨r, hr, hrv, hra⟩⟩

/-- C3 witness: both calls on an initially empty table. -/
theorem C3_subscribe_idempotent_witness :
    (subscribe true none 1 1 [] (some "a@x.com") none (some "t1")).1.success = true ∧
    (subscribe true none 2 2
        (subscribe true none 1 1 [] (some "a@x.com") none (some "t1")).2
        (some "a@x.com") none (some "t2")).1.success = true ∧
    ∃ r, findByEmail (subscribe true none 2 2
        (subscribe true none 1 1 [] (some "a@x.com") none (some "t1")).2
        (some "a@x.com") none (some "t2")).2 (jsTrim (jsToLower "a@x.com")) = some r ∧
      r.verified = true ∧ r.active = true :=
  C3_subscribe_idempotent [] 1 2 1 2 "a@x.com" none none "t1" "t2"
    (by decide) (by decide) (by decide) (by decide)

/-- C4, counterexample: the claim says read order is fully determined
by the stored data, never by insertion order.  Two `PutReport` calls
with the same `date_range_end` produce the same two stored entries in
both orders of insertion, yet `GetIndex` lists them in insertion
order: the sort is stable, so ties retain insertion order. -/
theorem C4_counterexample :
    storedReports (putReport "sekr" adminAuth hdrB "<p>b</p>" "n2"
        (putReport "sekr" adminAuth hdrA "<p>a</p>" "n1" emptyArchive).2).2 "z" =
      [mkReportMeta hdrA, mkReportMeta hdrB] ∧
    storedReports (putReport "sekr" adminAuth hdrA "<p>a</p>" "n2"
        (putReport "sekr" adminAuth hdrB "<p>b</p>" "n1" emptyArchive).2).2 "z" =
      [mkReportMeta hdrB, mkReportMeta hdrA] ∧
    [mkReportMeta hdrA, mkReportMeta hdrB] ≠ [mkReportMeta hdrB, mkReportMeta hdrA] := by
  exact ⟨by decide, by decide, by decide⟩

/-- C4 (amended): after every gated `PutReport` on an index with
pairwise-distinct ids, the stored sequence again has pairwise-distinct
ids and is sorted by `date_range_end` descending; for entries with
pairwise-distinct `date_range_end` the order is determined by the data
alone (any two permuted lists sort equally), while ties retain
insertion order; after two puts with ranges ending 2025-12-01 and
2025-12-05, the 2025-12-05 entry is listed first. -/
theorem C4_put_sort_invariant (adminSecret : String) (auth : Option String)
    (h : ReqHeaders) (body now : String) (st : ArchiveState)
    (hauth : isAuthorized auth adminSecret = true)
    (hh : (otruthy h.reportId && otruthy h.dateStart && otruthy h.dateEnd &&
           otruthy h.generatedAt && otruthy h.title && otruthy h.summary &&
           otruthy h.days && otruthy h.totalItems) = true)
    (hb : body ≠ "") (hbt : jsTrim body ≠ "")
    (hnd : ((storedReports st now).map (fun r => r.id)).Nodup) :
    ((storedReports (putReport adminSecret auth h body now st).2 now).map
        (fun r => r.id)).Nodup ∧
    List.Pairwise (fun a b => reportLe a b = true)
      (storedReports (putReport adminSecret auth h body now st).2 now) ∧
    (∀ l1 l2 : List ReportMeta, l1.Perm l2 →
      (l1.map (fun r => r.date_range_end)).Nodup →
      sortReports l1 = sortReports l2) ∧
    (storedReports (putReport "sekr" adminAuth hdrC "<p>c</p>" "n2"
        (putReport "sekr" adminAuth hdrA "<p>a</p>" "n1" emptyArchive).2).2 "z").map
      (fun r => r.id) = ["c", "a"] := by
  rw [putReport_reduce adminSecret auth h body now st hauth hh hb hbt]
  have hbase : storedReports st now = (getArchiveIndex st.kv now).reports := rfl
  rw [hbase] at hnd
  refine ⟨?_, ?_, fun l1 l2 hp hn => sortReports_eq_of_perm l1 l2 hp hn, by decide⟩
  · have hup := upsertReport_nodup (getArchiveIndex st.kv now).reports
      (mkReportMeta h) hnd
    exact ((sortReports_perm _).map (fun r => r.id)).symm.nodup hup
  · exact sortReports_sorted _

/-- C4 witness: the amended theorem applied to a first put on the
empty archive. -/
theorem C4_put_sort_invariant_witness :
    ((storedReports (putReport "sekr" adminAuth hdrA "<p>a</p>" "n1"
        emptyArchive).2 "n1").map (fun r => r.id)).Nodup ∧
    List.Pairwise (fun a b => reportLe a b = true)
      (storedReports (putReport "sekr" adminAuth hdrA "<p>a</p>" "n1"
        emptyArchive).2 "n1") ∧
    (∀ l1 l2 : List ReportMeta, l1.Perm l2 →
      (l1.map (fun r => r.date_range_end)).Nodup →
      sortReports l1 = sortReports l2) ∧
    (storedReports (putReport "sekr" adminAuth hdrC "<p>c</p>" "n2"
        (putReport "sekr" adminAuth hdrA "<p>a</p>" "n1" emptyArchive).2).2 "z").map
      (fun r => r.id) = ["c", "a"] :=
  C4_put_sort_invariant "sekr" adminAuth hdrA "<p>a</p>" "n1" emptyArchive
    (by decide) (by decide) (by decide) (by decide) (by decide)

/-- C5, counterexample: the claim says a non-empty stored name is never
overwritten by the provided name.  On an unverified row with stored
name `Old`, `Subscribe` with provided name `New` overwrites it:
`COALESCE(?, name)` prefers the provided value. -/
theorem C5_counterexample :
    rowOldName.name = some "Old" ∧
    (subscribe true none 9 2 [rowOldName] (some "a@x.com") (some "New")
        (some "tk")).2 =
      [⟨1, "a@x.com", some "New", none, true, true, 0, some 9⟩] := by
  exact ⟨rfl, by decide⟩

/-- C5 (amended): a `Subscribe` call hitting an existing unverified row
sets `verified := true`, `active := true`, `verified_at := now`, and
stores the provided (sanitized) name whenever one is provided and
non-empty — overwriting any stored name — keeping the stored name only
when no usable name is provided. -/
theorem C5_autoverify_name_merge (db : List Subscriber) (now nid : Nat)
    (email : String) (name : Option String) (tok : String) (r : Subscriber)
    (he : email ≠ "") (ht : tok ≠ "")
    (hre : emailRegexTest (jsTrim (jsToLower email)) = true)
    (hfind : findByEmail db (jsTrim (jsToLower email)) = some r)
    (hunv : r.verified = false) :
    (subscribe true none now nid db (some email) name (some tok)).1 =
      ⟨true, some "You're subscribed! You'll receive the next newsletter.",
       none, 200⟩ ∧
    findByEmail (subscribe true none now nid db (some email) name (some tok)).2
        (jsTrim (jsToLower email)) =
      some { r with verified := true, verified_at := some now, active := true,
                    name := match sanitizeName name with
                            | some n => some n
                            | none => r.name } := by
  rw [subscribe_reduce now nid db email name tok he ht hre, hfind]
  simp only [hunv, Bool.false_and, Bool.false_eq_true, if_false]
  refine ⟨trivial, ?_⟩
  unfold updateWhereId findByEmail
  rw [find?_email_map _ (fun x => by by_cases hx : x.id = r.id <;> simp [hx])]
  unfold findByEmail at hfind
  rw [hfind]
  simp

/-- C5 witness: the amended theorem applied to the stored-name fixture,
showing the provided name winning over the stored one. -/
theorem C5_autoverify_name_merge_witness :
    (subscribe true none 9 2 [rowOldName] (some "a@x.com") (some "New")
        (some "tk")).1 =
      ⟨true, some "You're subscribed! You'll receive the next newsletter.",
       none, 200⟩ ∧
    findByEmail (subscribe true none 9 2 [rowOldName] (some "a@x.com")
        (some "New") (some "tk")).2 (jsTrim (jsToLower "a@x.com")) =
      some { rowOldName with verified := true, verified_at := some 9,
                             active := true,
                             name := match sanitizeName (some "New") with
                                     | some n => some n
                                     | none => rowOldName.name } :=
  C5_autoverify_name_merge [rowOldName] 9 2 "a@x.com" (some "New") "tk"
    rowOldName (by decide) (by decide) (by decide) (by decide) rfl

/-- C6, counterexample: the claim says the body is stored under
`reports/{id}`.  After a put with id `a`, the content store holds
nothing at `reports/a`; the body and the recorded content key are at
`reports/a.html`. -/
theorem C6_counterexample :
    (putReport "sekr" adminAuth hdrA "<p>a</p>" "n1" emptyArchive).2.r2
      "reports/a" = none ∧
    (putReport "sekr" adminAuth hdrA "<p>a</p>" "n1" emptyArchive).2.r2
      "reports/a.html" = some "<p>a</p>" ∧
    ((putReport "sekr" adminAuth hdrA "<p>a</p>" "n1" emptyArchive).1.data).map
      (fun m => m.r2_key) = some "reports/a.html" := by
  exact ⟨by decide, by decide, by decide⟩

/-- C6 (amended): every gated `PutReport(meta, body)` writes the body to
the content store under `reports/{id}.html`, and the stored
`ReportMeta`'s content key equals `reports/{id}.html`. -/
theorem C6_put_content_key (adminSecret : String) (auth : Option String)
    (h : ReqHeaders) (body now : String) (st : ArchiveState)
    (hauth : isAuthorized auth adminSecret = true)
    (hh : (otruthy h.reportId && otruthy h.dateStart && otruthy h.dateEnd &&
           otruthy h.generatedAt && otruthy h.title && otruthy h.summary &&
           otruthy h.days && otruthy h.totalItems) = true)
    (hb : body ≠ "") (hbt : jsTrim body ≠ "") :
    (putReport adminSecret auth h body now st).2.r2
        ("reports/" ++ h.reportId.getD "" ++ ".html") = some body ∧
    ((putReport adminSecret auth h body now st).1.data).map (fun m => m.r2_key) =
      some ("reports/" ++ h.reportId.getD "" ++ ".html") ∧
    mkReportMeta h ∈ storedReports (putReport adminSecret auth h body now st).2 now ∧
    (mkReportMeta h).r2_key = "reports/" ++ h.reportId.getD "" ++ ".html" := by
  rw [putReport_reduce adminSecret auth h body now st hauth hh hb hbt]
  refine ⟨by simp, rfl, ?_, rfl⟩
  show mkReportMeta h ∈ sortReports (upsertReport
    (getArchiveIndex st.kv now).reports (mkReportMeta h))
  exact (sortReports_perm _).mem_iff.mpr (mem_upsertReport _ _)

/-- C6 witness: the amended theorem at the first put on the empty
archive. -/
theorem C6_put_content_key_witness :
    (putReport "sekr" adminAuth hdrA "<p>a</p>" "n1" emptyArchive).2.r2
        ("reports/" ++ hdrA.reportId.getD "" ++ ".html") = some "<p>a</p>" ∧
    ((putReport "sekr" adminAuth hdrA "<p>a</p>" "n1" emptyArchive).1.data).map
      (fun m => m.r2_key) =
      some ("reports/" ++ hdrA.reportId.getD "" ++ ".html") ∧
    mkReportMeta hdrA ∈ storedReports
      (putReport "sekr" adminAuth hdrA "<p>a</p>" "n1" emptyArchive).2 "n1" ∧
    (mkReportMeta hdrA).r2_key = "reports/" ++ hdrA.reportId.getD "" ++ ".html" :=
  C6_put_content_key "sekr" adminAuth hdrA "<p>a</p>" "n1" emptyArchive
    (by decide) (by decide) (by decide) (by decide)

/-- C7: a gated `PutReport` followed by `GetReport` on the same id
returns exactly the submitted body, and the entry for that id in the
index returned by `GetIndex` is exactly the metadata built from the
submitted headers. -/
theorem C7_roundtrip (adminSecret : String) (auth : Option String) (h : ReqHeaders)
    (body now now' : String) (st : ArchiveState)
    (hauth : isAuthorized auth adminSecret = true)
    (hh : (otruthy h.reportId && otruthy h.dateStart && otruthy h.dateEnd &&
           otruthy h.generatedAt && otruthy h.title && otruthy h.summary &&
           otruthy h.days && otruthy h.totalItems) = true)
    (hb : body ≠ "") (hbt : jsTrim body ≠ "")
    (hnd : ((storedReports st now).map (fun r => r.id)).Nodup) :
    getReport (putReport adminSecret auth h body now st).2 now' (h.reportId.getD "") =
      GetResp.page body 200 ∧
    (getIndexRoute (putReport adminSecret auth h body now st).2 now').reports.find?
        (fun r => r.id == h.reportId.getD "") = some (mkReportMeta h) := by
  rw [putReport_reduce adminSecret auth h body now st hauth hh hb hbt]
  have hbase : storedReports st now = (getArchiveIndex st.kv now).reports := rfl
  rw [hbase] at hnd
  have hfind : (sortReports (upsertReport (getArchiveIndex st.kv now).reports
      (mkReportMeta h))).find? (fun r => r.id == h.reportId.getD "") =
      some (mkReportMeta h) :=
    find?_sortReports_upsert _ (mkReportMeta h) hnd
  constructor
  · simp only [getReport, getArchiveIndex]
    simp only [getArchiveIndex] at hfind
    rw [hfind]
    simp [mkReportMeta]
  · simp only [getIndexRoute, getArchiveIndex]
    simp only [getArchiveIndex] at hfind
    exact hfind

/-- C7 witness: the round trip at the first put on the empty archive. -/
theorem C7_roundtrip_witness :
    getReport (putReport "sekr" adminAuth hdrA "<p>a</p>" "n1" emptyArchive).2 "n2"
        (hdrA.reportId.getD "") = GetResp.page "<p>a</p>" 200 ∧
    (getIndexRoute (putReport "sekr" adminAuth hdrA "<p>a</p>" "n1"
        emptyArchive).2 "n2").reports.find?
        (fun r => r.id == hdrA.reportId.getD "") = some (mkReportMeta hdrA) :=
  C7_roundtrip "sekr" adminAuth hdrA "<p>a</p>" "n1" "n2" emptyArchive
    (by decide) (by decide) (by decide) (by decide) (by decide)

/-- C8: an authorized `PatchReportMeta` with neither a usable `title`
nor a usable `summary` (absent or empty, per the handler's truthiness
check) fails with the 400 validation error and leaves the state
unchanged; with a usable field and an absent id it fails with 404 and
leaves the state unchanged; otherwise it overwrites exactly the
supplied fields of the entry at the found position, leaving its other
fields and every other entry unchanged, and does not touch the
content store. -/
theorem C8_patch_fields (adminSecret : String) (auth : Option String)
    (st : ArchiveState) (now id : String) (title summary : Option String)
    (hauth : isAuthorized auth adminSecret = true) :
    (otruthy title = false → otruthy summary = false →
       patchReportMeta adminSecret auth st now id title summary =
         (⟨false, none,
           some "Request body must contain at least one of: title, summary",
           none, 400⟩, st)) ∧
    ((otruthy title = true ∨ otruthy summary = true) →
       (storedReports st now).findIdx? (fun r => r.id == id) = none →
       patchReportMeta adminSecret auth st now id title summary =
         (⟨false, none, some "Report not found", none, 404⟩, st)) ∧
    (∀ i, (otruthy title = true ∨ otruthy summary = true) →
       (storedReports st now).findIdx? (fun r => r.id == id) = some i →
       (patchReportMeta adminSecret auth st now id title summary).1.success = true ∧
       (patchReportMeta adminSecret auth st now id title summary).2.r2 = st.r2 ∧
       ∃ l', (patchReportMeta adminSecret auth st now id title summary).2.kv =
           some ⟨l', now⟩ ∧
         (∀ j, j ≠ i → l'[j]? = (storedReports st now)[j]?) ∧
         l'[i]? = some { (storedReports st now).getD i default with
           title := if otruthy title = true then title.getD ""
                    else ((storedReports st now).getD i default).title,
           summary := if otruthy summary = true then summary.getD ""
                      else ((storedReports st now).getD i default).summary }) := by
  have hred : ∀ P : ArchResp × ArchiveState → Prop,
      P (if !otruthy title && !otruthy summary then
           (⟨false, none,
             some "Request body must contain at least one of: title, summary",
             none, 400⟩, st)
         else
           match (getArchiveIndex st.kv now).reports.findIdx?
               (fun r => r.id == id) with
           | none => (⟨false, none, some "Report not found", none, 404⟩, st)
           | some i =>
             (⟨true, some "Report metadata updated", none,
               some (patchEntry (getArchiveIndex st.kv now).reports i title summary),
               200⟩,
              ⟨some ⟨(getArchiveIndex st.kv now).reports.set i
                  (patchEntry (getArchiveIndex st.kv now).reports i title summary),
                now⟩, st.r2⟩)) →
      P (patchReportMeta adminSecret auth st now id title summary) := by
    intro P hp
    unfold patchReportMeta
    rw [hauth]
    simpa using hp
  refine ⟨?_, ?_, ?_⟩
  · intro ht hs
    refine hred (fun z => z = _) ?_
    rw [if_pos (by simp [ht, hs])]
  · intro hor hfi
    have hcond : (!otruthy title && !otruthy summary) = false := by
      rcases hor with h1 | h1 <;> rw [h1] <;> simp
    refine hred (fun z => z = _) ?_
    rw [if_neg (by rw [hcond]; simp)]
    rw [show (getArchiveIndex st.kv now).reports = storedReports st now from rfl, hfi]
  · intro i hor hfi
    have hcond : (!otruthy title && !otruthy summary) = false := by
      rcases hor with h1 | h1 <;> rw [h1] <;> simp
    have hfi' : (getArchiveIndex st.kv now).reports.findIdx?
        (fun r => r.id == id) = some i := hfi
    have hlt : i < (getArchiveIndex st.kv now).reports.length :=
      (List.findIdx?_eq_some_iff_getElem.mp hfi').choose
    refine hred (fun z => z.1.success = true ∧ z.2.r2 = st.r2 ∧
      ∃ l', z.2.kv = some ⟨l', now⟩ ∧
        (∀ j, j ≠ i → l'[j]? = (storedReports st now)[j]?) ∧
        l'[i]? = some { (storedReports st now).getD i default with
          title := if otruthy title = true then title.getD ""
                   else ((storedReports st now).getD i default).title,
          summary := if otruthy summary = true then summary.getD ""
                     else ((storedReports st now).getD i default).summary }) ?_
    simp only [hcond, Bool.false_eq_true, if_false, hfi']
    refine ⟨trivial, trivial, _, rfl, ?_, ?_⟩
    · intro j hj
      exact List.getElem?_set_ne (Ne.symm hj)
    · rw [List.getElem?_set_self hlt]
      unfold patchEntry
      by_cases h1 : otruthy title = true <;> by_cases h2 : otruthy summary = true <;>
        simp [h1, h2, storedReports]

/-- C8 witness: the three branches exercised on the fixture with the
`x` entry present. -/
theorem C8_patch_fields_witness :
    (otruthy (some "T") = false → otruthy none = false →
       patchReportMeta "sekr" adminAuth stMissingBody "n" "x" (some "T") none =
         (⟨false, none,
           some "Request body must contain at least one of: title, summary",
           none, 400⟩, stMissingBody)) ∧
    ((otruthy (some "T") = true ∨ otruthy none = true) →
       (storedReports stMissingBody "n").findIdx? (fun r => r.id == "x") = none →
       patchReportMeta "sekr" adminAuth stMissingBody "n" "x" (some "T") none =
         (⟨false, none, some "Report not found", none, 404⟩, stMissingBody)) ∧
    (∀ i, (otruthy (some "T") = true ∨ otruthy none = true) →
       (storedReports stMissingBody "n").findIdx? (fun r => r.id == "x") = some i →
       (patchReportMeta "sekr" adminAuth stMissingBody "n" "x" (some "T")
           none).1.success = true ∧
       (patchReportMeta "sekr" adminAuth stMissingBody "n" "x" (some "T")
           none).2.r2 = stMissingBody.r2 ∧
       ∃ l', (patchReportMeta "sekr" adminAuth stMissingBody "n" "x" (some "T")
           none).2.kv = some ⟨l', "n"⟩ ∧
         (∀ j, j ≠ i → l'[j]? = (storedReports stMissingBody "n")[j]?) ∧
         l'[i]? = some { (storedReports stMissingBody "n").getD i default with
           title := if otruthy (some "T") = true then (some "T").getD ""
                    else ((storedReports stMissingBody "n").getD i default).title,
           summary := if otruthy (none : Option String) = true
                      then (none : Option String).getD ""
                      else ((storedReports stMissingBody "n").getD i
                        default).summary }) :=
  C8_patch_fields "sekr" adminAuth stMissingBody "n" "x" (some "T") none (by decide)

/-- C9, counterexample: the claim says the two `NotFound` causes are
reported identically.  Both are 404, but an absent id answers with
error `Report not found` while a present id with a missing body
answers `Report content not found in storage`: the responses differ. -/
theorem C9_counterexample :
    getReport emptyArchive "n" "x" = GetResp.jsonError "Report not found" 404 ∧
    getReport stMissingBody "n" "x" =
      GetResp.jsonError "Report content not found in storage" 404 ∧
    getReport emptyArchive "n" "x" ≠ getReport stMissingBody "n" "x" := by
  exact ⟨by decide, by decide, by decide⟩

/-- C9 (amended): `GetReport(id)` fails with status 404 both when the
id is absent from the index and when the indexed content key has no
body in the content store; the two failures share the status code but
carry distinct error messages, so they are distinguishable by the
caller. -/
theorem C9_get_notfound (st : ArchiveState) (now id : String) :
    ((getArchiveIndex st.kv now).reports.find? (fun r => r.id == id) = none →
       getReport st now id = GetResp.jsonError "Report not found" 404) ∧
    (∀ r, (getArchiveIndex st.kv now).reports.find? (fun r => r.id == id) = some r →
       st.r2 r.r2_key = none →
       getReport st now id =
         GetResp.jsonError "Report content not found in storage" 404) := by
  constructor
  · intro hf
    simp only [getReport, hf]
  · intro r hf hr2
    simp only [getReport, hf, hr2]

/-- C9 witness: both 404 branches exercised on the fixtures. -/
theorem C9_get_notfound_witness :
    getReport emptyArchive "n" "x" = GetResp.jsonError "Report not found" 404 ∧
    getReport stMissingBody "n" "x" =
      GetResp.jsonError "Report content not found in storage" 404 :=
  ⟨(C9_get_notfound emptyArchive "n" "x").1 (by decide),
   (C9_get_notfound stMissingBody "n" "x").2
     ⟨"x", "2024-12-31", "2025-01-01", "g", "t", "s", "reports/x.html", none, none⟩
     (by decide) (by decide)⟩

/-- C10: `PutReport` validates only the presence of the metadata
headers: with every header present (as non-empty strings) it succeeds
and stores the metadata built from the headers, whose `days` and
`total_items` are `NaN` (modelled `none`) whenever the corresponding
header does not parse as an integer. -/
theorem C10_put_nonnumeric (adminSecret : String) (auth : Option String)
    (h : ReqHeaders) (body now : String) (st : ArchiveState)
    (hauth : isAuthorized auth adminSecret = true)
    (hh : (otruthy h.reportId && otruthy h.dateStart && otruthy h.dateEnd &&
           otruthy h.generatedAt && otruthy h.title && otruthy h.summary &&
           otruthy h.days && otruthy h.totalItems) = true)
    (hb : body ≠ "") (hbt : jsTrim body ≠ "") :
    (putReport adminSecret auth h body now st).1.success = true ∧
    (putReport adminSecret auth h body now st).1.data = some (mkReportMeta h) ∧
    mkReportMeta h ∈ storedReports (putReport adminSecret auth h body now st).2 now ∧
    (parseIntJS (h.days.getD "") = none → (mkReportMeta h).days = none) ∧
    (parseIntJS (h.totalItems.getD "") = none →
      (mkReportMeta h).total_items = none) := by
  rw [putReport_reduce adminSecret auth h body now st hauth hh hb hbt]
  refine ⟨rfl, rfl, ?_, fun hd => hd, fun ht => ht⟩
  show mkReportMeta h ∈ sortReports (upsertReport
    (getArchiveIndex st.kv now).reports (mkReportMeta h))
  exact (sortReports_perm _).mem_iff.mpr (mem_upsertReport _ _)

/-- C10 witness: a put whose `X-Days` and `X-Total-Items` headers are
the non-numeric strings `zz` and `yy` succeeds and stores `NaN`s. -/
theorem C10_put_nonnumeric_witness :
    (putReport "sekr" adminAuth hdrNaN "<p>a</p>" "n1" emptyArchive).1.success = true ∧
    (putReport "sekr" adminAuth hdrNaN "<p>a</p>" "n1" emptyArchive).1.data =
      some (mkReportMeta hdrNaN) ∧
    mkReportMeta hdrNaN ∈ storedReports
      (putReport "sekr" adminAuth hdrNaN "<p>a</p>" "n1" emptyArchive).2 "n1" ∧
    (parseIntJS (hdrNaN.days.getD "") = none → (mkReportMeta hdrNaN).days = none) ∧
    (parseIntJS (hdrNaN.totalItems.getD "") = none →
      (mkReportMeta hdrNaN).total_items = none) :=
  C10_put_nonnumeric "sekr" adminAuth hdrNaN "<p>a</p>" "n1" emptyArchive
    (by decide) (by decide) (by decide) (by decide)

end AINews
